import Mathlib

/-!
# Verification of the media-play-records session merging and aggregation engine

This file gives a shallow embedding of the core logic of the repository:

* the merge engine (`getVideoKey`, `buildDisplayRecords` with its
  `pushCurrent` / merge loop from `History.tsx`),
* the aggregator (`getLanguageStats` from `History.tsx`,
  `updateDailyDurations` and the goal-achievement test from `Calendar.tsx`),
* the goal resolver (`IndexedDBService.getDailyGoal`, `loadGoals`,
  `saveGoal`),
* the import validation (`importData`),

and proves the specified properties about these definitions.

Modelling conventions:

* A JavaScript `Date` parsed from a record's ISO `date` string is modelled by
  `JSDate`: the epoch milliseconds (`getTime()`) together with the calendar
  fields the code reads (`getFullYear()`, `getMonth()`, `getDate()`).
* JavaScript strings are Lean `String`s; `String.prototype.trim` and
  `toLowerCase` are modelled on the character list (`trimChars`,
  `Char.toLower`).
* The IndexedDB object stores are modelled as lists of the stored documents;
  `put` replaces the document with the same key.
* All arithmetic is exact: durations are `Nat` seconds, timestamps are `Int`
  milliseconds.  The source computes `gapHours = |diff| / 3600000` in floating
  point and tests `gapHours > 2`; for integer millisecond differences below
  2^53 this is exactly equivalent to `7200000 < |diff|`, which is how the test
  is embedded.
-/

namespace MediaPlayRecords

/-! ## JavaScript string primitives -/

/-- Leading and trailing whitespace removal on a character list; model of
`String.prototype.trim`. -/
def trimChars (l : List Char) : List Char :=
  ((l.dropWhile Char.isWhitespace).reverse.dropWhile Char.isWhitespace).reverse

/-- Model of `String.prototype.trim`. -/
def jsTrim (s : String) : String := ⟨trimChars s.data⟩

/-- Model of `String.prototype.toLowerCase` (ASCII case folding). -/
def jsToLower (s : String) : String := ⟨s.data.map Char.toLower⟩

/-- JavaScript falsiness of an optional string field: `undefined`/`null` and
the empty string are falsy. -/
def jsFalsy : Option String → Bool
  | none => true
  | some s => s == ""

/-! ## Data model -/

/-- The result of `new Date(isoString)` as the code observes it: epoch
milliseconds (`getTime()`) plus the local calendar fields
(`getFullYear()`, `getMonth()` (0-based), `getDate()`). -/
structure JSDate where
  ms : Int
  year : Int
  month : Nat
  day : Nat
deriving DecidableEq, Repr

/-- `PlaybackRecord` from `types/database.ts`.  `language` is kept as a raw
string because stored data may carry values outside the `Language` union
(the aggregation code guards for this).  The ISO `date` string is represented
by its parse `JSDate`. -/
structure PlaybackRecord where
  sessionId : String
  title : String
  url : String
  language : String
  duration : Nat
  date : JSDate
  channelName : Option String := none
  channelLogo : Option String := none
deriving DecidableEq, Repr

/-- `TimelineSegment` (`{ start: number; end: number }`); `end` is a reserved
word in Lean, hence `segStart`/`segEnd`. -/
structure TimelineSegment where
  segStart : Int
  segEnd : Int
deriving DecidableEq, Repr

/-- `DisplayRecord`: a `PlaybackRecord` plus the merge-derived fields. -/
structure DisplayRecord extends PlaybackRecord where
  mergedSessionIds : List String
  totalDuration : Nat
  startDate : JSDate
  isMerged : Bool
  spanStart : Int
  spanEnd : Int
  segments : List TimelineSegment
deriving DecidableEq, Repr

/-- `new Date(record.date).getTime()`. -/
def startMs (r : PlaybackRecord) : Int := r.date.ms

/-- `startMs + record.duration * 1000`. -/
def endMs (r : PlaybackRecord) : Int := r.date.ms + r.duration * 1000

/-! ## Merge engine (`History.tsx`) -/

/-- `getVideoKey`: normalized merge identity from channel name, title and
language; the URL is not consulted. -/
def getVideoKey (r : PlaybackRecord) : String :=
  let channelKey := jsToLower (jsTrim (r.channelName.getD ""))
  let titleKey := jsToLower (jsTrim r.title)
  channelKey ++ "::" ++ titleKey ++ "::" ++ r.language

/-- The `crossesDay` test of `buildDisplayRecords`: the two parsed dates
differ in year, month or day-of-month. -/
def crossesDay (a b : JSDate) : Bool :=
  a.year != b.year || a.month != b.month || a.day != b.day

/-- Absolute millisecond gap `|prevDate.getTime() - currentDate.getTime()|`. -/
def gapMs (a b : JSDate) : Nat := (a.ms - b.ms).natAbs

/-- The `shouldMerge` condition of `buildDisplayRecords`.  `gapHours > 2` on
exact millisecond differences is `7200000 < gapMs`. -/
def shouldMerge (current : DisplayRecord) (lastMergedDate : Option JSDate)
    (r : PlaybackRecord) : Bool :=
  let prevDate := lastMergedDate.getD current.startDate
  (getVideoKey current.toPlaybackRecord == getVideoKey r)
    && !(crossesDay prevDate r.date && decide (7200000 < gapMs prevDate r.date))

/-- The singleton `DisplayRecord` literal used both in the no-merge branch and
when a new accumulator is started. -/
def mkCurrent (r : PlaybackRecord) : DisplayRecord :=
  { toPlaybackRecord := r
    mergedSessionIds := [r.sessionId]
    totalDuration := r.duration
    startDate := r.date
    isMerged := false
    spanStart := startMs r
    spanEnd := endMs r
    segments := [{ segStart := startMs r, segEnd := endMs r }] }

/-- The merge step: fold record `r` into the accumulator `c`. -/
def mergeInto (c : DisplayRecord) (r : PlaybackRecord) : DisplayRecord :=
  { c with
    totalDuration := c.totalDuration + r.duration
    startDate := if startMs r < c.startDate.ms then r.date else c.startDate
    mergedSessionIds := c.mergedSessionIds ++ [r.sessionId]
    spanStart := min c.spanStart (startMs r)
    spanEnd := max c.spanEnd (endMs r)
    segments := c.segments ++ [{ segStart := startMs r, segEnd := endMs r }]
    channelLogo := if jsFalsy c.channelLogo then r.channelLogo else c.channelLogo
    channelName := if jsFalsy c.channelName then r.channelName else c.channelName }

/-- `pushCurrent`: emit the accumulator (if any), computing `isMerged` on
emission. -/
def pushCurrent : Option DisplayRecord → List DisplayRecord
  | none => []
  | some c => [{ c with isMerged := decide (1 < c.mergedSessionIds.length) }]

/-- The `records.forEach` loop of `buildDisplayRecords` with the mutable
state (`merged`, `current`, `lastMergedDate`) made explicit, followed by the
final `pushCurrent(current)`. -/
def mergeLoop : List PlaybackRecord → List DisplayRecord →
    Option DisplayRecord → Option JSDate → List DisplayRecord
  | [], merged, current, _ => merged ++ pushCurrent current
  | r :: rs, merged, current, lastMergedDate =>
    match current with
    | none => mergeLoop rs merged (some (mkCurrent r)) (some r.date)
    | some c =>
      if shouldMerge c lastMergedDate r then
        mergeLoop rs merged (some (mergeInto c r)) (some r.date)
      else
        mergeLoop rs (merged ++ pushCurrent (some c)) (some (mkCurrent r))
          (some r.date)

/-- `buildDisplayRecords`. -/
def buildDisplayRecords (records : List PlaybackRecord)
    (mergeConsecutive : Bool) : List DisplayRecord :=
  if mergeConsecutive then mergeLoop records [] none none
  else records.map mkCurrent

/-! ## Aggregator -/

/-- The `stats` object of `getLanguageStats`. -/
structure LanguageStats where
  cantonese : Nat := 0
  english : Nat := 0
  japanese : Nat := 0
  spanish : Nat := 0
deriving DecidableEq, Repr

/-- One `records.forEach` step of `getLanguageStats`:
`if (record.language in stats) stats[record.language] += record.duration`.
A language outside the four keys leaves `stats` untouched. -/
def addLanguageDuration (s : LanguageStats) (lang : String) (d : Nat) :
    LanguageStats :=
  if lang = "cantonese" then { s with cantonese := s.cantonese + d }
  else if lang = "english" then { s with english := s.english + d }
  else if lang = "japanese" then { s with japanese := s.japanese + d }
  else if lang = "spanish" then { s with spanish := s.spanish + d }
  else s

/-- `getLanguageStats` from `History.tsx`. -/
def getLanguageStats (records : List PlaybackRecord) : LanguageStats :=
  records.foldl (fun s r => addLanguageDuration s r.language r.duration) {}

/-- Dynamic lookup `stats[lang]` on the four known keys (used to state the
aggregation theorems uniformly). -/
def statsGet (s : LanguageStats) (lang : String) : Nat :=
  if lang = "cantonese" then s.cantonese
  else if lang = "english" then s.english
  else if lang = "japanese" then s.japanese
  else if lang = "spanish" then s.spanish
  else 0

/-- The four members of the `Language` union as strings. -/
def knownLanguages : List String := ["cantonese", "english", "japanese", "spanish"]

/-- `String(n).padStart(2, "0")` for the nonnegative calendar fields. -/
def pad2 (n : Nat) : String :=
  if (toString n).length < 2 then "0" ++ toString n else toString n

/-- The `dateStr` key `${getFullYear()}-${pad(getMonth()+1)}-${pad(getDate())}`
built by `Calendar.updateDailyDurations`. -/
def dateKey (d : JSDate) : String :=
  toString d.year ++ "-" ++ pad2 (d.month + 1) ++ "-" ++ pad2 d.day

/-- `Calendar.updateDailyDurations`: per-day, per-language duration totals.
The `Map`/object pair is modelled as a total function that is `0` where the
code's map has no entry. -/
def updateDailyDurations (records : List PlaybackRecord) :
    String → String → Nat :=
  records.foldl
    (fun durations r => fun ds l =>
      if ds = dateKey r.date then
        if l = r.language then durations ds l + r.duration else durations ds l
      else durations ds l)
    (fun _ _ => 0)

/-- The goal-achievement test of `Calendar.tsx`:
`goal > 0 && Math.floor(numericDuration / 60) >= goal` (duration in seconds,
goal in minutes). -/
def achieved (numericDuration : Nat) (goal : Nat) : Bool :=
  decide (0 < goal) && decide (goal ≤ numericDuration / 60)

/-! ## Goals and goal resolution -/

/-- The `Language` union of `types/database.ts` (for goal documents, which
are typed `Record<Language, number>`). -/
inductive Language where
  | cantonese
  | english
  | japanese
  | spanish
deriving DecidableEq, Repr

/-- `DailyGoal` document.  The `YYYY-MM-DD` key is represented by its parse
(epoch milliseconds), which is all the resolution code compares; `updatedAt`
is informational only and not modelled.  `visibility` is optional in stored
documents. -/
structure DailyGoal where
  date : Int
  goals : Language → Nat
  visibility : Option (Language → Bool) := none

/-- Modelled from the spec: `DEFAULT_DAILY_GOAL` is imported from
`src/utils/constants`, which is not part of the provided sources; per the
spec it is the hard-coded default goal set — every language with goal 0. -/
def DEFAULT_DAILY_GOAL : Language → Nat := fun _ => 0

/-- `normalizeVisibility`: per-language default to `true` when the mapping is
absent. -/
def normalizeVisibility (v : Option (Language → Bool)) : Language → Bool :=
  fun l => match v with
  | some f => f l
  | none => true

/-- The descending-date comparison used by
`IndexedDBService.getDailyGoal`'s sort. -/
def goalDateGe (a b : DailyGoal) : Prop := b.date ≤ a.date

instance : DecidableRel goalDateGe := fun a b => Int.decLe b.date a.date

instance : IsTotal DailyGoal goalDateGe :=
  ⟨fun a b => le_total b.date a.date⟩

instance : IsTrans DailyGoal goalDateGe :=
  ⟨fun _ _ _ h h' => le_trans h' h⟩

/-- `allGoals.sort((a, b) => new Date(b.date).getTime() - new Date(a.date).getTime())`. -/
def sortByDateDesc (l : List DailyGoal) : List DailyGoal :=
  List.insertionSort goalDateGe l

/-- `IndexedDBService.getDailyGoal`: over the list of all stored documents,
sort by date descending and return the first with `date <= targetDate`. -/
def getDailyGoal (allGoals : List DailyGoal) (targetDate : Int) :
    Option DailyGoal :=
  if allGoals.isEmpty then none
  else (sortByDateDesc allGoals).find? (fun g => decide (g.date ≤ targetDate))

/-- The resolution step of `loadGoals`: the fetched document, or a fresh
default document (`DEFAULT_DAILY_GOAL`, no visibility mapping) when the store
yields none. -/
def resolveDailyGoal (store : List DailyGoal) (today : Int) : DailyGoal :=
  match getDailyGoal store today with
  | some g => g
  | none => { date := today, goals := DEFAULT_DAILY_GOAL, visibility := none }

/-- The visibility the `loadGoals` path resolves:
`normalizeVisibility(dailyGoal.visibility || languageVisibility)` where
`languageVisibility` is the current UI state. -/
def resolveVisibility (store : List DailyGoal) (today : Int)
    (languageVisibility : Language → Bool) : Language → Bool :=
  match (resolveDailyGoal store today).visibility with
  | some v => normalizeVisibility (some v)
  | none => normalizeVisibility (some languageVisibility)

/-- `IndexedDBService.saveDailyGoal`: `put` keyed by `date` — replace the
same-key document. -/
def saveDailyGoal (store : List DailyGoal) (g : DailyGoal) : List DailyGoal :=
  g :: store.filter (fun x => !(x.date == g.date))

/-- The document `saveGoal(language)` persists for today: resolve today's
snapshot, merge its goals over the all-zero base, overwrite the one
language's goal with the input value (`goalInputs[language] || 0` — the
`|| 0` is the identity on `Nat`), and rebuild the visibility mapping with
only that language taken from the current UI state. -/
def saveGoalDoc (store : List DailyGoal) (today : Int) (language : Language)
    (goalInputs : Language → Nat) (languageVisibility : Language → Bool) :
    DailyGoal :=
  let existingDailyGoal := getDailyGoal store today
  let goals : Language → Nat := fun l =>
    if l = language then goalInputs language
    else
      match existingDailyGoal with
      | some g => g.goals l
      | none => 0
  let baseVisibility : Language → Bool :=
    normalizeVisibility
      (match existingDailyGoal with
       | some g =>
         match g.visibility with
         | some v => some v
         | none => some languageVisibility
       | none => some languageVisibility)
  let visibility : Language → Bool := fun l =>
    if l = language then languageVisibility language else baseVisibility l
  { date := today, goals := goals, visibility := some visibility }

/-- `saveGoal(language)` from `History.tsx`: build the merged document for
today and persist it. -/
def saveGoal (store : List DailyGoal) (today : Int) (language : Language)
    (goalInputs : Language → Nat) (languageVisibility : Language → Bool) :
    List DailyGoal :=
  saveDailyGoal store
    (saveGoalDoc store today language goalInputs languageVisibility)

/-! ## Import validation (`importData` in `History.tsx`) -/

/-- The shape of the `records` field of a parsed import document. -/
inductive RecordsField where
  | absent
  | notArray
  | array (rs : List PlaybackRecord)
deriving DecidableEq, Repr

/-- A parsed import document as `importData` inspects it: the `version`
field (a string or absent) and the `records` field. -/
structure ImportDoc where
  version : Option String := none
  records : RecordsField := .absent
deriving DecidableEq, Repr

/-- `importData` after `JSON.parse`: validate
`!data.version || !data.records || !Array.isArray(data.records)` and, on
success, return the sequence of records passed to `saveRecord` (in order).
`none` means the validation threw — no `saveRecord` call is issued. -/
def importData (doc : ImportDoc) : Option (List PlaybackRecord) :=
  if jsFalsy doc.version then none
  else
    match doc.records with
    | .array rs => some rs
    | _ => none

/-! ## Concrete data used by the witnesses

Real instants: `sampleDate1` is 2024-03-01T10:00:00Z, `sampleDate2` is
2024-03-01T10:20:00Z, `sampleDate3` is 2024-03-02T22:00:00Z (next calendar
day, twelve-hour gap), `sampleDate4` is 2024-03-02T01:00:00Z (next calendar
day, one-hour gap after `sampleDate3`'s sibling below). -/

def sampleDate1 : JSDate := { ms := 1709287200000, year := 2024, month := 2, day := 1 }

def sampleDate2 : JSDate := { ms := 1709288400000, year := 2024, month := 2, day := 1 }

def sampleDate3 : JSDate := { ms := 1709416800000, year := 2024, month := 2, day := 2 }

def sampleDate4 : JSDate := { ms := 1709341200000, year := 2024, month := 2, day := 2 }

def sampleRecord1 : PlaybackRecord :=
  { sessionId := "s1", title := "A", url := "https://v.example/w?v=1",
    language := "english", duration := 600, date := sampleDate1 }

def sampleRecord2 : PlaybackRecord :=
  { sessionId := "s2", title := " a ", url := "https://v.example/w?v=1&t=5",
    language := "english", duration := 300, date := sampleDate2 }

def sampleRecord3 : PlaybackRecord :=
  { sessionId := "s3", title := "A", url := "https://v.example/w?v=1",
    language := "english", duration := 60, date := sampleDate3 }

def sampleRecord4 : PlaybackRecord :=
  { sessionId := "s4", title := "A", url := "https://v.example/w?v=1",
    language := "english", duration := 60, date := sampleDate4 }

/-! ## Small list lemmas -/

lemma flatten_map_singleton {α β : Type _} (f : α → β) :
    ∀ rs : List α, (rs.map (fun r => [f r])).flatten = rs.map f
  | [] => rfl
  | r :: rs => by simp [flatten_map_singleton f rs]

/-! ## C4: goal-achievement threshold -/

/-- C4: a day's language is achieved iff the goal is strictly positive and
`floor(totalSeconds / 60) >= goalMinutes`; 3600 s meets a 60-minute goal,
3599 s does not, and a zero goal is never achieved. -/
theorem claim_C4 :
    (∀ numericDuration goal : Nat,
        achieved numericDuration goal = true ↔
          0 < goal ∧ goal ≤ numericDuration / 60)
    ∧ achieved 3600 60 = true
    ∧ achieved 3599 60 = false
    ∧ ∀ numericDuration : Nat, achieved numericDuration 0 = false := by
  refine ⟨fun d g => ?_, by decide, by decide, fun d => ?_⟩
  · simp [achieved]
  · simp [achieved]

/-! ## C8: import validation -/

/-- C8: a document with a missing `version` or with a missing/non-array
`records` field fails the import with no `saveRecord` call issued; a
well-formed document has every record of its `records` array upserted, in
order. -/
theorem claim_C8 :
    (∀ doc : ImportDoc,
        doc.version = none ∨ doc.records = RecordsField.absent ∨
          doc.records = RecordsField.notArray →
        importData doc = none)
    ∧ ∀ (doc : ImportDoc) (rs : List PlaybackRecord),
        jsFalsy doc.version = false → doc.records = RecordsField.array rs →
        importData doc = some rs := by
  constructor
  · intro doc h
    rcases h with h | h | h
    · simp [importData, h, jsFalsy]
    · by_cases hv : jsFalsy doc.version <;> simp [importData, h, hv]
    · by_cases hv : jsFalsy doc.version <;> simp [importData, h, hv]
  · intro doc rs hv hr
    simp [importData, hv, hr]

/-- Witness for C8: a record-bearing document with `version: "1.0"` imports
exactly its records; the same document without `version` imports nothing. -/
theorem claim_C8_witness :
    importData { version := some "1.0", records := .array [sampleRecord1] }
        = some [sampleRecord1]
      ∧ importData { version := none, records := .array [sampleRecord1] }
        = none :=
  ⟨claim_C8.2 _ [sampleRecord1] (by decide) rfl,
   claim_C8.1 _ (Or.inl rfl)⟩

/-! ## C9: merge disabled -/

/-- C9: with merge disabled, the i-th display record is the singleton view of
the i-th input record: not merged, exactly that session id, the record's own
duration, and the single segment `[start, start + duration]`. -/
theorem claim_C9 :
    (∀ rs : List PlaybackRecord, (buildDisplayRecords rs false).length = rs.length)
    ∧ ∀ (rs : List PlaybackRecord) (i : Nat) (r : PlaybackRecord),
        rs[i]? = some r →
        (buildDisplayRecords rs false)[i]? = some
          { toPlaybackRecord := r
            mergedSessionIds := [r.sessionId]
            totalDuration := r.duration
            startDate := r.date
            isMerged := false
            spanStart := r.date.ms
            spanEnd := r.date.ms + r.duration * 1000
            segments := [{ segStart := r.date.ms
                           segEnd := r.date.ms + r.duration * 1000 }] } := by
  constructor
  · intro rs
    simp [buildDisplayRecords]
  · intro rs i r h
    simp [buildDisplayRecords, List.getElem?_map, h, mkCurrent, startMs, endMs]

/-- Witness for C9 at a one-record input. -/
theorem claim_C9_witness :
    (buildDisplayRecords [sampleRecord1] false)[0]? = some
      { toPlaybackRecord := sampleRecord1
        mergedSessionIds := ["s1"]
        totalDuration := 600
        startDate := sampleDate1
        isMerged := false
        spanStart := 1709287200000
        spanEnd := 1709287800000
        segments := [{ segStart := 1709287200000, segEnd := 1709287800000 }] } :=
  claim_C9.2 [sampleRecord1] 0 sampleRecord1 rfl

/-! ## C10: the output partitions the input -/

/-- The session ids held by the accumulator. -/
def currentSids : Option DisplayRecord → List String
  | none => []
  | some c => c.mergedSessionIds

lemma mergeLoop_sids :
    ∀ (rs : List PlaybackRecord) (merged : List DisplayRecord)
      (current : Option DisplayRecord) (last : Option JSDate),
      ((mergeLoop rs merged current last).map
          (fun d => d.mergedSessionIds)).flatten
        = (merged.map (fun d => d.mergedSessionIds)).flatten ++
            currentSids current ++ rs.map (fun r => r.sessionId)
  | [], merged, current, _ => by
    cases current <;>
      simp [mergeLoop, pushCurrent, currentSids]
  | r :: rs, merged, current, last => by
    match current with
    | none =>
      rw [mergeLoop, mergeLoop_sids]
      simp [currentSids, mkCurrent]
    | some c =>
      rw [mergeLoop]
      by_cases h : shouldMerge c last r
      · rw [if_pos h, mergeLoop_sids]
        simp [currentSids, mergeInto]
      · rw [if_neg h, mergeLoop_sids]
        simp [currentSids, mkCurrent, pushCurrent]

lemma pushCurrent_isMerged (c : Option DisplayRecord) :
    ∀ d ∈ pushCurrent c, d.isMerged = decide (1 < d.mergedSessionIds.length) := by
  cases c with
  | none => simp [pushCurrent]
  | some c => simp [pushCurrent]

lemma mergeLoop_isMerged :
    ∀ (rs : List PlaybackRecord) (merged : List DisplayRecord)
      (current : Option DisplayRecord) (last : Option JSDate),
      (∀ d ∈ merged, d.isMerged = decide (1 < d.mergedSessionIds.length)) →
      ∀ d ∈ mergeLoop rs merged current last,
        d.isMerged = decide (1 < d.mergedSessionIds.length)
  | [], merged, current, _ => by
    intro h d hd
    rw [mergeLoop] at hd
    rcases List.mem_append.1 hd with hm | hm
    · exact h d hm
    · exact pushCurrent_isMerged current d hm
  | r :: rs, merged, current, last => by
    intro h
    match current with
    | none =>
      rw [mergeLoop]
      exact mergeLoop_isMerged rs merged _ _ h
    | some c =>
      rw [mergeLoop]
      by_cases hm : shouldMerge c last r
      · rw [if_pos hm]
        exact mergeLoop_isMerged rs merged _ _ h
      · rw [if_neg hm]
        refine mergeLoop_isMerged rs _ _ _ ?_
        intro d hd
        rcases List.mem_append.1 hd with hd | hd
        · exact h d hd
        · exact pushCurrent_isMerged (some c) d hd

/-- C10: for both merge settings, concatenating the `mergedSessionIds` lists
of the output, in emission order, gives exactly the input records' session
ids in input order; and each output record has `isMerged` true exactly when
it absorbed more than one session. -/
theorem claim_C10 :
    ∀ (rs : List PlaybackRecord) (mergeConsecutive : Bool),
      ((buildDisplayRecords rs mergeConsecutive).map
          (fun d => d.mergedSessionIds)).flatten
        = rs.map (fun r => r.sessionId)
      ∧ ∀ d ∈ buildDisplayRecords rs mergeConsecutive,
          d.isMerged = decide (1 < d.mergedSessionIds.length) := by
  intro rs b
  cases b with
  | false =>
    constructor
    · show ((rs.map mkCurrent).map (fun d => d.mergedSessionIds)).flatten = _
      rw [List.map_map]
      exact flatten_map_singleton (fun r => r.sessionId) rs
    · intro d hd
      simp only [buildDisplayRecords, Bool.false_eq_true, if_false,
        List.mem_map] at hd
      obtain ⟨r, _, rfl⟩ := hd
      rfl
  | true =>
    constructor
    · show ((mergeLoop rs [] none none).map _).flatten = _
      rw [mergeLoop_sids]
      rfl
    · exact mergeLoop_isMerged rs [] none none (by simp)

/-- Witness for C10: the merged pair of records concatenates to the two input
session ids, and a singleton output record of the unmerged path satisfies the
`isMerged` clause. -/
theorem claim_C10_witness :
    ((buildDisplayRecords [sampleRecord1, sampleRecord2] true).map
        (fun d => d.mergedSessionIds)).flatten = ["s1", "s2"]
      ∧ (mkCurrent sampleRecord1).isMerged
          = decide (1 < (mkCurrent sampleRecord1).mergedSessionIds.length) :=
  ⟨(claim_C10 [sampleRecord1, sampleRecord2] true).1,
   (claim_C10 [sampleRecord1] false).2 (mkCurrent sampleRecord1)
     (by simp [buildDisplayRecords])⟩

/-! ## C7: aggregation tolerates unknown languages -/

lemma statsGet_default (l : String) : statsGet {} l = 0 := by
  unfold statsGet
  split_ifs <;> rfl

lemma addLanguageDuration_statsGet (s : LanguageStats) (lang : String) (d : Nat)
    (l : String) (hl : l ∈ knownLanguages) :
    statsGet (addLanguageDuration s lang d) l
      = statsGet s l + (if lang = l then d else 0) := by
  simp only [knownLanguages, List.mem_cons, List.not_mem_nil, or_false] at hl
  rcases hl with rfl | rfl | rfl | rfl <;>
    · simp only [addLanguageDuration, statsGet]
      split_ifs <;> simp_all

lemma addLanguageDuration_unknown (s : LanguageStats) (lang : String) (d : Nat)
    (h : lang ∉ knownLanguages) : addLanguageDuration s lang d = s := by
  simp only [knownLanguages, List.mem_cons, List.not_mem_nil, or_false,
    not_or] at h
  simp [addLanguageDuration, h.1, h.2.1, h.2.2.1, h.2.2.2]

lemma getLanguageStats_go (l : String) (hl : l ∈ knownLanguages) :
    ∀ (rs : List PlaybackRecord) (s : LanguageStats),
      statsGet
          (rs.foldl (fun s r => addLanguageDuration s r.language r.duration) s) l
        = statsGet s l
            + ((rs.filter (fun r => r.language == l)).map
                (fun r => r.duration)).sum
  | [], s => by simp
  | r :: rs, s => by
    rw [List.foldl_cons, getLanguageStats_go l hl rs,
      addLanguageDuration_statsGet s r.language r.duration l hl]
    by_cases h : r.language = l <;> simp [List.filter_cons, h] <;> omega

lemma updateDailyDurations_go :
    ∀ (rs : List PlaybackRecord) (m : String → String → Nat) (ds l : String),
      (rs.foldl
          (fun durations r => fun ds l =>
            if ds = dateKey r.date then
              if l = r.language then durations ds l + r.duration
              else durations ds l
            else durations ds l) m) ds l
        = m ds l
            + ((rs.filter
                  (fun r => ds == dateKey r.date && l == r.language)).map
                (fun r => r.duration)).sum
  | [], _, _, _ => by simp
  | r :: rs, m, ds, l => by
    rw [List.foldl_cons, updateDailyDurations_go rs _ ds l]
    by_cases h1 : ds = dateKey r.date <;> by_cases h2 : l = r.language <;>
      simp [List.filter_cons, h1, h2] <;> omega

/-- C7: the per-language totals pass and the per-day pass both tolerate
records whose `language` is outside the known set: such a record leaves the
language statistics untouched, and for every known language the total (global
or per day) is exactly the sum of the durations of that language's records. -/
theorem claim_C7 :
    (∀ (rs : List PlaybackRecord) (l : String), l ∈ knownLanguages →
        statsGet (getLanguageStats rs) l
          = ((rs.filter (fun r => r.language == l)).map
              (fun r => r.duration)).sum)
    ∧ (∀ (rs1 rs2 : List PlaybackRecord) (r : PlaybackRecord),
        r.language ∉ knownLanguages →
        getLanguageStats (rs1 ++ r :: rs2) = getLanguageStats (rs1 ++ rs2))
    ∧ ∀ (rs : List PlaybackRecord) (ds l : String), l ∈ knownLanguages →
        updateDailyDurations rs ds l
          = ((rs.filter
                (fun r => ds == dateKey r.date && l == r.language)).map
              (fun r => r.duration)).sum := by
  refine ⟨fun rs l hl => ?_, fun rs1 rs2 r hr => ?_, fun rs ds l _ => ?_⟩
  · rw [getLanguageStats, getLanguageStats_go l hl rs {}, statsGet_default,
      Nat.zero_add]
  · rw [getLanguageStats, getLanguageStats, List.foldl_append,
      List.foldl_append, List.foldl_cons,
      addLanguageDuration_unknown _ r.language r.duration hr]
  · rw [updateDailyDurations, updateDailyDurations_go rs _ ds l]
    simp

/-- A record with a language outside the known set (used by the C7 witness). -/
def sampleRecordUnknown : PlaybackRecord :=
  { sessionId := "s9", title := "B", url := "https://v.example/x",
    language := "french", duration := 120, date := sampleDate2 }

/-- Witness for C7: with an `english` record and a `french` record, the
`english` total is the `english` record's duration, the `french` record drops
out of the statistics entirely, and the per-day total for the record's day
matches. -/
theorem claim_C7_witness :
    statsGet (getLanguageStats [sampleRecord1, sampleRecordUnknown]) "english"
        = (([sampleRecord1, sampleRecordUnknown].filter
              (fun r => r.language == "english")).map
            (fun r => r.duration)).sum
      ∧ getLanguageStats ([sampleRecord1] ++ sampleRecordUnknown :: [])
          = getLanguageStats ([sampleRecord1] ++ [])
      ∧ updateDailyDurations [sampleRecord1, sampleRecordUnknown]
            "2024-03-01" "english"
          = (([sampleRecord1, sampleRecordUnknown].filter
                (fun r => "2024-03-01" == dateKey r.date
                  && "english" == r.language)).map
              (fun r => r.duration)).sum :=
  ⟨claim_C7.1 [sampleRecord1, sampleRecordUnknown] "english" (by decide),
   claim_C7.2.1 [sampleRecord1] [] sampleRecordUnknown (by decide),
   claim_C7.2.2 [sampleRecord1, sampleRecordUnknown] "2024-03-01" "english"
     (by decide)⟩

/-! ## C2: each display record faithfully summarises its constituents -/

/-- The relation between a display record and the list of constituent input
records it was folded from: the session ids are the constituents' ids in
order, the total duration is the sum of their durations, there is exactly one
segment per constituent, and the span is the earliest start / latest end. -/
def RepGroup (g : List PlaybackRecord) (d : DisplayRecord) : Prop :=
  g ≠ [] ∧
  d.mergedSessionIds = g.map (fun r => r.sessionId) ∧
  d.totalDuration = (g.map (fun r => r.duration)).sum ∧
  d.segments = g.map (fun r => { segStart := startMs r, segEnd := endMs r }) ∧
  d.segments.length = d.mergedSessionIds.length ∧
  d.spanStart ∈ g.map startMs ∧ (∀ r ∈ g, d.spanStart ≤ startMs r) ∧
  d.spanEnd ∈ g.map endMs ∧ ∀ r ∈ g, endMs r ≤ d.spanEnd

lemma repGroup_mkCurrent (r : PlaybackRecord) : RepGroup [r] (mkCurrent r) := by
  simp [RepGroup, mkCurrent]

lemma repGroup_setMerged (g : List PlaybackRecord) (c : DisplayRecord)
    (x : Bool) (h : RepGroup g c) :
    RepGroup g { c with isMerged := x } := h

lemma repGroup_mergeInto (g : List PlaybackRecord) (c : DisplayRecord)
    (r : PlaybackRecord) (h : RepGroup g c) :
    RepGroup (g ++ [r]) (mergeInto c r) := by
  obtain ⟨-, hsid, htot, hseg, hlen, hmemS, hbndS, hmemE, hbndE⟩ := h
  refine ⟨by simp, ?_, ?_, ?_, ?_, ?_, ?_, ?_, ?_⟩
  · simp [mergeInto, hsid]
  · simp [mergeInto, htot]
  · simp [mergeInto, hseg]
  · simp [mergeInto, hseg, hsid]
  · show min c.spanStart (startMs r) ∈ _
    rcases min_choice c.spanStart (startMs r) with hm | hm <;>
      rw [hm, List.map_append]
    · exact List.mem_append.2 (Or.inl hmemS)
    · simp
  · intro x hx
    rcases List.mem_append.1 hx with hx | hx
    · exact le_trans (min_le_left _ _) (hbndS x hx)
    · simp only [List.mem_singleton] at hx
      subst hx
      exact min_le_right _ _
  · show max c.spanEnd (endMs r) ∈ _
    rcases max_choice c.spanEnd (endMs r) with hm | hm <;>
      rw [hm, List.map_append]
    · exact List.mem_append.2 (Or.inl hmemE)
    · simp
  · intro x hx
    rcases List.mem_append.1 hx with hx | hx
    · exact le_trans (hbndE x hx) (le_max_left _ _)
    · simp only [List.mem_singleton] at hx
      subst hx
      exact le_max_right _ _

lemma pushCurrent_rep (rs0 : List PlaybackRecord) (c : DisplayRecord)
    (hc : ∃ g, (∀ x ∈ g, x ∈ rs0) ∧ RepGroup g c) :
    ∀ d ∈ pushCurrent (some c), ∃ g, (∀ x ∈ g, x ∈ rs0) ∧ RepGroup g d := by
  intro d hd
  simp only [pushCurrent, List.mem_singleton] at hd
  subst hd
  obtain ⟨g, hg, hrep⟩ := hc
  exact ⟨g, hg, repGroup_setMerged g c _ hrep⟩

lemma mergeLoop_rep (rs0 : List PlaybackRecord) :
    ∀ (rs : List PlaybackRecord) (merged : List DisplayRecord)
      (current : Option DisplayRecord) (last : Option JSDate),
      (∀ r ∈ rs, r ∈ rs0) →
      (∀ d ∈ merged, ∃ g, (∀ x ∈ g, x ∈ rs0) ∧ RepGroup g d) →
      (∀ c, current = some c → ∃ g, (∀ x ∈ g, x ∈ rs0) ∧ RepGroup g c) →
      ∀ d ∈ mergeLoop rs merged current last,
        ∃ g, (∀ x ∈ g, x ∈ rs0) ∧ RepGroup g d
  | [], merged, current, _ => by
    intro _ hm hc d hd
    rw [mergeLoop] at hd
    rcases List.mem_append.1 hd with hd | hd
    · exact hm d hd
    · cases current with
      | none => simp [pushCurrent] at hd
      | some c => exact pushCurrent_rep rs0 c (hc c rfl) d hd
  | r :: rs, merged, current, last => by
    intro hrs hm hc
    have hr : r ∈ rs0 := hrs r (by simp)
    have hrs' : ∀ x ∈ rs, x ∈ rs0 := fun x hx => hrs x (by simp [hx])
    match current with
    | none =>
      rw [mergeLoop]
      refine mergeLoop_rep rs0 rs merged _ _ hrs' hm ?_
      intro c hceq
      injection hceq with hceq
      exact hceq ▸ ⟨[r], by simpa using hr, repGroup_mkCurrent r⟩
    | some c =>
      rw [mergeLoop]
      by_cases hsm : shouldMerge c last r
      · rw [if_pos hsm]
        refine mergeLoop_rep rs0 rs merged _ _ hrs' hm ?_
        rintro c' hc'
        injection hc' with hc'
        obtain ⟨g, hg, hrep⟩ := hc c rfl
        exact hc' ▸ ⟨g ++ [r], by
          intro x hx
          rcases List.mem_append.1 hx with hx | hx
          · exact hg x hx
          · simp only [List.mem_singleton] at hx
            exact hx ▸ hr, repGroup_mergeInto g c r hrep⟩
      · rw [if_neg hsm]
        refine mergeLoop_rep rs0 rs _ _ _ hrs' ?_ ?_
        · intro d hd
          rcases List.mem_append.1 hd with hd | hd
          · exact hm d hd
          · exact pushCurrent_rep rs0 c (hc c rfl) d hd
        · intro c' hceq
          injection hceq with hceq
          exact hceq ▸ ⟨[r], by simpa using hr, repGroup_mkCurrent r⟩

/-- C2: for both merge settings, every emitted display record has a list of
constituent input records such that its `mergedSessionIds` are exactly their
session ids in order, `totalDuration` is the sum of their durations,
`segments` has exactly one interval per constituent (in particular
`segments.length = mergedSessionIds.length`), `spanStart` is the earliest
constituent start and `spanEnd` the latest constituent end
(start + duration). -/
theorem claim_C2 :
    ∀ (rs : List PlaybackRecord) (mergeConsecutive : Bool),
      ∀ d ∈ buildDisplayRecords rs mergeConsecutive,
        ∃ g : List PlaybackRecord, (∀ x ∈ g, x ∈ rs) ∧ RepGroup g d := by
  intro rs b d hd
  cases b with
  | false =>
    simp only [buildDisplayRecords, Bool.false_eq_true, if_false,
      List.mem_map] at hd
    obtain ⟨r, hr, rfl⟩ := hd
    exact ⟨[r], by simpa using hr, repGroup_mkCurrent r⟩
  | true =>
    exact mergeLoop_rep rs rs [] none none (fun _ h => h) (by simp)
      (by simp) d hd

/-- Witness for C2 at a singleton input. -/
theorem claim_C2_witness :
    ∃ g : List PlaybackRecord,
      (∀ x ∈ g, x ∈ [sampleRecord1]) ∧ RepGroup g (mkCurrent sampleRecord1) :=
  claim_C2 [sampleRecord1] false (mkCurrent sampleRecord1)
    (by simp [buildDisplayRecords])

/-! ## C3: merge-key normalization -/

lemma dropWhile_append_all {α : Type _} (p : α → Bool) :
    ∀ (l1 l2 : List α), (∀ c ∈ l1, p c = true) →
      List.dropWhile p (l1 ++ l2) = List.dropWhile p l2
  | [], _, _ => rfl
  | c :: cs, l2, h => by
    simp only [List.cons_append, List.dropWhile_cons, h c (by simp)]
    exact dropWhile_append_all p cs l2 fun x hx => h x (by simp [hx])

lemma trimChars_pad (x w1 w2 : List Char)
    (h1 : ∀ c ∈ w1, c.isWhitespace = true)
    (h2 : ∀ c ∈ w2, c.isWhitespace = true) :
    trimChars (w1 ++ x ++ w2) = trimChars x := by
  unfold trimChars
  rw [List.append_assoc, dropWhile_append_all _ w1 _ h1]
  rcases eq_or_ne (x.dropWhile Char.isWhitespace) [] with hx | hx
  · have hxall : ∀ c ∈ x, c.isWhitespace = true := List.dropWhile_eq_nil_iff.1 hx
    have hxw : List.dropWhile Char.isWhitespace (x ++ w2) = [] := by
      rw [dropWhile_append_all _ x _ hxall]
      exact List.dropWhile_eq_nil_iff.2 h2
    rw [hxw, hx]
  · rw [List.dropWhile_append]
    have hne : (x.dropWhile Char.isWhitespace).isEmpty = false := by
      simp [List.isEmpty_iff, hx]
    rw [hne]
    simp only [Bool.false_eq_true, if_false]
    rw [List.reverse_append,
      dropWhile_append_all _ w2.reverse _ (by simpa using h2)]

lemma not_ws_of_toNat_gt (c : Char) (h : 64 < c.toNat) :
    c.isWhitespace = false := by
  unfold Char.isWhitespace
  simp only [Bool.or_eq_false_iff, decide_eq_false_iff_not]
  refine ⟨⟨⟨fun e => ?_, fun e => ?_⟩, fun e => ?_⟩, fun e => ?_⟩ <;>
    · rw [e] at h
      exact absurd h (by decide)

lemma ws_toLower (c : Char) :
    (Char.toLower c).isWhitespace = c.isWhitespace := by
  simp only [Char.toLower]
  split_ifs with h
  · have hv : (c.toNat + 32).isValidChar := Or.inl (by omega)
    have hofn : (Char.ofNat (c.toNat + 32)).toNat = c.toNat + 32 := by
      unfold Char.ofNat
      rw [dif_pos hv]
      rfl
    rw [not_ws_of_toNat_gt (Char.ofNat (c.toNat + 32)) (by rw [hofn]; omega),
      not_ws_of_toNat_gt c (by omega)]
  · rfl

lemma trimChars_map_toLower (l : List Char) :
    trimChars (l.map Char.toLower) = (trimChars l).map Char.toLower := by
  unfold trimChars
  have hws : (Char.isWhitespace ∘ Char.toLower) = Char.isWhitespace :=
    funext ws_toLower
  rw [List.dropWhile_map, hws, ← List.map_reverse, List.dropWhile_map, hws,
    ← List.map_reverse]

lemma jsTrim_lower_eq (s t : String)
    (h : s.data.map Char.toLower = t.data.map Char.toLower) :
    jsToLower (jsTrim s) = jsToLower (jsTrim t) := by
  show String.mk ((trimChars s.data).map Char.toLower)
      = String.mk ((trimChars t.data).map Char.toLower)
  exact congrArg String.mk
    (by rw [← trimChars_map_toLower, h, trimChars_map_toLower])

lemma jsTrim_pad (s w1 w2 : String)
    (h1 : ∀ c ∈ w1.data, c.isWhitespace = true)
    (h2 : ∀ c ∈ w2.data, c.isWhitespace = true) :
    jsTrim (w1 ++ s ++ w2) = jsTrim s := by
  show String.mk (trimChars (w1 ++ s ++ w2).data) = String.mk (trimChars s.data)
  refine congrArg String.mk ?_
  rw [String.data_append, String.data_append]
  exact trimChars_pad s.data w1.data w2.data h1 h2

lemma getVideoKey_congr (r1 r2 : PlaybackRecord)
    (hcn : jsToLower (jsTrim (r1.channelName.getD ""))
      = jsToLower (jsTrim (r2.channelName.getD "")))
    (ht : jsToLower (jsTrim r1.title) = jsToLower (jsTrim r2.title))
    (hl : r1.language = r2.language) :
    getVideoKey r1 = getVideoKey r2 := by
  show jsToLower (jsTrim (r1.channelName.getD "")) ++ "::"
      ++ jsToLower (jsTrim r1.title) ++ "::" ++ r1.language
    = jsToLower (jsTrim (r2.channelName.getD "")) ++ "::"
      ++ jsToLower (jsTrim r2.title) ++ "::" ++ r2.language
  rw [hcn, ht, hl]

/-- C3: the merge key is computed only from the trimmed, lower-cased channel
name, the trimmed, lower-cased title, and the language; it ignores the URL
entirely (hence any difference in query parameters), and it is invariant
under leading/trailing whitespace and letter case of title and channel
name. -/
theorem claim_C3 :
    (∀ r1 r2 : PlaybackRecord,
        jsToLower (jsTrim (r1.channelName.getD ""))
            = jsToLower (jsTrim (r2.channelName.getD "")) →
        jsToLower (jsTrim r1.title) = jsToLower (jsTrim r2.title) →
        r1.language = r2.language →
        getVideoKey r1 = getVideoKey r2)
    ∧ (∀ (r : PlaybackRecord) (u : String),
        getVideoKey { r with url := u } = getVideoKey r)
    ∧ (∀ (r : PlaybackRecord) (w1 w2 w3 w4 : String),
        (∀ c ∈ w1.data, c.isWhitespace = true) →
        (∀ c ∈ w2.data, c.isWhitespace = true) →
        (∀ c ∈ w3.data, c.isWhitespace = true) →
        (∀ c ∈ w4.data, c.isWhitespace = true) →
        getVideoKey
            { r with
              title := w1 ++ r.title ++ w2
              channelName := some (w3 ++ r.channelName.getD "" ++ w4) }
          = getVideoKey r)
    ∧ ∀ r1 r2 : PlaybackRecord,
        r1.title.data.map Char.toLower = r2.title.data.map Char.toLower →
        (r1.channelName.getD "").data.map Char.toLower
            = (r2.channelName.getD "").data.map Char.toLower →
        r1.language = r2.language →
        getVideoKey r1 = getVideoKey r2 := by
  refine ⟨getVideoKey_congr, fun r u => rfl, fun r w1 w2 w3 w4 h1 h2 h3 h4 => ?_,
    fun r1 r2 ht hcn hl =>
      getVideoKey_congr r1 r2 (jsTrim_lower_eq _ _ hcn) (jsTrim_lower_eq _ _ ht) hl⟩
  refine getVideoKey_congr _ _ ?_ ?_ rfl
  · show jsToLower (jsTrim (w3 ++ r.channelName.getD "" ++ w4))
        = jsToLower (jsTrim (r.channelName.getD ""))
    rw [jsTrim_pad _ w3 w4 h3 h4]
  · show jsToLower (jsTrim (w1 ++ r.title ++ w2)) = jsToLower (jsTrim r.title)
    rw [jsTrim_pad _ w1 w2 h1 h2]

/-- Witness for C3: a URL change, whitespace padding, a case-variant title
pair, and the congruence, each at concrete records. -/
theorem claim_C3_witness :
    getVideoKey { sampleRecord1 with url := "https://v.example/w?si=9&v=1" }
        = getVideoKey sampleRecord1
      ∧ getVideoKey
          { sampleRecord1 with
            title := " " ++ sampleRecord1.title ++ "  "
            channelName := some ("" ++ sampleRecord1.channelName.getD "" ++ "\t") }
        = getVideoKey sampleRecord1
      ∧ getVideoKey sampleRecord1 = getVideoKey sampleRecord2
      ∧ getVideoKey sampleRecord1
        = getVideoKey { sampleRecord1 with title := "a" } :=
  ⟨claim_C3.2.1 sampleRecord1 "https://v.example/w?si=9&v=1",
   claim_C3.2.2.1 sampleRecord1 " " "  " "" "\t" (by decide) (by decide)
     (by decide) (by decide),
   claim_C3.1 sampleRecord1 sampleRecord2 rfl (by decide) rfl,
   claim_C3.2.2.2 sampleRecord1 { sampleRecord1 with title := "a" }
     (by decide) rfl rfl⟩

/-! ## C1: the merge condition -/

/-- Two parsed dates fall on the same calendar day (the spec's wording of
the negation of `crossesDay`). -/
def sameCalendarDay (a b : JSDate) : Prop :=
  a.year = b.year ∧ a.month = b.month ∧ a.day = b.day

/-- The merge rule as the spec words it: the record's merge key equals the
accumulator's key, and it is not the case that the record falls on a
different calendar day than the last-merged record with a gap exceeding two
hours. -/
def specShouldMerge (accumulatorKey : String) (lastDate : JSDate)
    (r : PlaybackRecord) : Prop :=
  getVideoKey r = accumulatorKey ∧
    ¬(¬ sameCalendarDay lastDate r.date ∧ 7200000 < gapMs lastDate r.date)

instance (a b : JSDate) : Decidable (sameCalendarDay a b) :=
  inferInstanceAs (Decidable (_ ∧ _ ∧ _))

lemma crossesDay_eq_false_iff (a b : JSDate) :
    crossesDay a b = false ↔ sameCalendarDay a b := by
  unfold crossesDay sameCalendarDay
  simp [Bool.or_eq_false_iff, and_assoc]

lemma crossesDay_eq_true_iff (a b : JSDate) :
    crossesDay a b = true ↔ ¬ sameCalendarDay a b := by
  rw [← crossesDay_eq_false_iff]
  cases crossesDay a b <;> simp

/-- A record on 2024-03-01T23:30:00Z (for the cross-day small-gap case). -/
def sampleRecord5 : PlaybackRecord :=
  { sessionId := "s5", title := "A", url := "https://v.example/w?v=1",
    language := "english", duration := 60,
    date := { ms := 1709335800000, year := 2024, month := 2, day := 1 } }

/-- C1: a record folds into the accumulator iff its key equals the
accumulator's key and it does not cross a calendar-day boundary relative to
the last-merged record with a gap over 2 hours; on a two-record input,
same-key same-day records always merge, and same-key cross-day records merge
exactly when the gap is at most 2 hours. -/
theorem claim_C1 :
    (∀ (c : DisplayRecord) (lastDate : JSDate) (r : PlaybackRecord),
        shouldMerge c (some lastDate) r = true ↔
          specShouldMerge (getVideoKey c.toPlaybackRecord) lastDate r)
    ∧ (∀ r1 r2 : PlaybackRecord,
        (buildDisplayRecords [r1, r2] true).length = 1 ↔
          getVideoKey r2 = getVideoKey r1 ∧
            (sameCalendarDay r1.date r2.date ∨
              gapMs r1.date r2.date ≤ 7200000))
    ∧ (∀ r1 r2 : PlaybackRecord, getVideoKey r2 = getVideoKey r1 →
        sameCalendarDay r1.date r2.date →
        (buildDisplayRecords [r1, r2] true).length = 1)
    ∧ ∀ r1 r2 : PlaybackRecord, getVideoKey r2 = getVideoKey r1 →
        ¬ sameCalendarDay r1.date r2.date →
        ((buildDisplayRecords [r1, r2] true).length = 1 ↔
          gapMs r1.date r2.date ≤ 7200000) := by
  have hiff : ∀ (c : DisplayRecord) (lastDate : JSDate) (r : PlaybackRecord),
      shouldMerge c (some lastDate) r = true ↔
        specShouldMerge (getVideoKey c.toPlaybackRecord) lastDate r := by
    intro c ld r
    show ((getVideoKey c.toPlaybackRecord == getVideoKey r)
        && !(crossesDay ld r.date
              && decide (7200000 < gapMs ld r.date))) = true ↔ _
    rw [Bool.and_eq_true, Bool.not_eq_true', Bool.and_eq_false_iff]
    unfold specShouldMerge
    constructor
    · rintro ⟨hk, hrest⟩
      refine ⟨(beq_iff_eq.1 hk).symm, ?_⟩
      rintro ⟨hns, hgap⟩
      rcases hrest with h | h
      · exact hns ((crossesDay_eq_false_iff ld r.date).1 h)
      · rw [decide_eq_false_iff_not] at h
        exact h hgap
    · rintro ⟨hk, hrest⟩
      refine ⟨beq_iff_eq.2 hk.symm, ?_⟩
      by_cases hcd : crossesDay ld r.date
      · refine Or.inr ?_
        rw [decide_eq_false_iff_not]
        intro hgap
        exact hrest ⟨(crossesDay_eq_true_iff ld r.date).1 hcd, hgap⟩
      · exact Or.inl (by simpa using hcd)
  have hbuild : ∀ r1 r2 : PlaybackRecord,
      buildDisplayRecords [r1, r2] true
        = if shouldMerge (mkCurrent r1) (some r1.date) r2
          then pushCurrent (some (mergeInto (mkCurrent r1) r2))
          else pushCurrent (some (mkCurrent r1))
            ++ pushCurrent (some (mkCurrent r2)) := by
    intro r1 r2
    by_cases h : shouldMerge (mkCurrent r1) (some r1.date) r2 <;>
      simp [buildDisplayRecords, mergeLoop, h]
  have key : ∀ r1 r2 : PlaybackRecord,
      shouldMerge (mkCurrent r1) (some r1.date) r2 = true ↔
        (getVideoKey r2 = getVideoKey r1 ∧
          (sameCalendarDay r1.date r2.date ∨
            gapMs r1.date r2.date ≤ 7200000)) := by
    intro r1 r2
    rw [hiff (mkCurrent r1) r1.date r2]
    show (getVideoKey r2 = getVideoKey r1 ∧ _) ↔ _
    constructor
    · rintro ⟨hk, hnot⟩
      refine ⟨hk, ?_⟩
      by_cases hs : sameCalendarDay r1.date r2.date
      · exact Or.inl hs
      · refine Or.inr ?_
        by_contra hg
        exact hnot ⟨hs, by omega⟩
    · rintro ⟨hk, hor⟩
      refine ⟨hk, ?_⟩
      rintro ⟨hns, hg⟩
      rcases hor with hs | hle
      · exact hns hs
      · omega
  have part2 : ∀ r1 r2 : PlaybackRecord,
      (buildDisplayRecords [r1, r2] true).length = 1 ↔
        getVideoKey r2 = getVideoKey r1 ∧
          (sameCalendarDay r1.date r2.date ∨
            gapMs r1.date r2.date ≤ 7200000) := by
    intro r1 r2
    rw [hbuild r1 r2]
    by_cases h : shouldMerge (mkCurrent r1) (some r1.date) r2
    · rw [if_pos h]
      exact iff_of_true rfl ((key r1 r2).1 h)
    · rw [if_neg h]
      refine iff_of_false (by simp [pushCurrent]) fun hr => h ((key r1 r2).2 hr)
  refine ⟨hiff, part2, fun r1 r2 hk hs => (part2 r1 r2).2 ⟨hk, Or.inl hs⟩,
    fun r1 r2 hk hns => ?_⟩
  rw [part2 r1 r2]
  constructor
  · rintro ⟨-, hor⟩
    rcases hor with hs | hle
    · exact absurd hs hns
    · exact hle
  · intro hle
    exact ⟨hk, Or.inr hle⟩

/-- Witness for C1: the condition equivalence at a concrete state; the
same-day pair merges; a cross-day pair's merge status is equivalent to its
gap being at most two hours. -/
theorem claim_C1_witness :
    (shouldMerge (mkCurrent sampleRecord1) (some sampleDate1) sampleRecord2
          = true ↔
        specShouldMerge (getVideoKey (mkCurrent sampleRecord1).toPlaybackRecord)
          sampleDate1 sampleRecord2)
      ∧ (buildDisplayRecords [sampleRecord1, sampleRecord2] true).length = 1
      ∧ ((buildDisplayRecords [sampleRecord5, sampleRecord4] true).length = 1 ↔
          gapMs sampleRecord5.date sampleRecord4.date ≤ 7200000) :=
  ⟨claim_C1.1 (mkCurrent sampleRecord1) sampleDate1 sampleRecord2,
   claim_C1.2.2.1 sampleRecord1 sampleRecord2 rfl (by decide),
   claim_C1.2.2.2 sampleRecord5 sampleRecord4 rfl (by decide)⟩

/-! ## C5: goal carry-forward resolution -/

lemma find_sorted_eq (t : Int) :
    ∀ (s : List DailyGoal), List.Sorted goalDateGe s →
      ∀ g, g ∈ s → g.date ≤ t →
        (∀ x ∈ s, x.date ≤ t → x.date ≤ g.date) →
        (∀ x ∈ s, x.date = g.date → x = g) →
        s.find? (fun x => decide (x.date ≤ t)) = some g
  | [], _, g, hg, _, _, _ => absurd hg (List.not_mem_nil g)
  | h :: tl, hs, g, hg, hgt, hmax, huniq => by
    by_cases hp : h.date ≤ t
    · rw [List.find?_cons_of_pos _ (by simpa using hp)]
      have hle : h.date ≤ g.date := hmax h (by simp) hp
      have hge : g.date ≤ h.date := by
        rcases List.mem_cons.1 hg with rfl | hgtl
        · exact le_refl _
        · exact (List.sorted_cons.1 hs).1 g hgtl
      exact congrArg some (huniq h (by simp) (le_antisymm hle hge))
    · rw [List.find?_cons_of_neg _ (by simpa using hp)]
      have hgtl : g ∈ tl := by
        rcases List.mem_cons.1 hg with rfl | hgtl
        · exact absurd hgt hp
        · exact hgtl
      exact find_sorted_eq t tl (List.sorted_cons.1 hs).2 g hgtl hgt
        (fun x hx => hmax x (by simp [hx]))
        (fun x hx => huniq x (by simp [hx]))

lemma getDailyGoal_some (store : List DailyGoal) (t : Int) (g : DailyGoal)
    (h : getDailyGoal store t = some g) :
    g ∈ store ∧ g.date ≤ t ∧ ∀ x ∈ store, x.date ≤ t → x.date ≤ g.date := by
  unfold getDailyGoal at h
  by_cases he : store.isEmpty
  · rw [if_pos he] at h
    cases h
  · rw [if_neg he] at h
    have hperm : (sortByDateDesc store).Perm store :=
      List.perm_insertionSort goalDateGe store
    have hsorted : List.Sorted goalDateGe (sortByDateDesc store) :=
      List.sorted_insertionSort goalDateGe store
    have hmem : g ∈ store :=
      hperm.mem_iff.1 (List.mem_of_find?_eq_some h)
    have hpred : g.date ≤ t := by simpa using List.find?_some h
    refine ⟨hmem, hpred, fun x hx hxt => ?_⟩
    obtain ⟨-, as, bs, heq, hprev⟩ := List.find?_eq_some.1 h
    have hx' : x ∈ sortByDateDesc store := hperm.mem_iff.2 hx
    rw [heq] at hx'
    rcases List.mem_append.1 hx' with hxa | hxb
    · have := hprev x hxa
      simp only [Bool.not_eq_true', decide_eq_false_iff_not] at this
      exact absurd hxt this
    · rcases List.mem_cons.1 hxb with rfl | hxbs
      · exact le_refl _
      · rw [heq] at hsorted
        exact (List.sorted_cons.1 (List.pairwise_append.1 hsorted).2.1).1 x hxbs

lemma getDailyGoal_none (store : List DailyGoal) (t : Int)
    (h : getDailyGoal store t = none) :
    ∀ x ∈ store, t < x.date := by
  unfold getDailyGoal at h
  by_cases he : store.isEmpty
  · rw [List.isEmpty_iff] at he
    subst he
    simp
  · rw [if_neg he] at h
    intro x hx
    have hx' : x ∈ sortByDateDesc store :=
      (List.perm_insertionSort goalDateGe store).mem_iff.2 hx
    have := List.find?_eq_none.1 h x hx'
    simp only [decide_eq_true_eq] at this
    omega

/-- The two stored snapshots of the spec's carry-forward scenario:
2024-01-01 (all goals 15) and 2024-01-10 (all goals 45), as epoch
milliseconds of their `YYYY-MM-DD` keys. -/
def goalJan01 : DailyGoal :=
  { date := 1704067200000, goals := fun _ => 15, visibility := none }

def goalJan10 : DailyGoal :=
  { date := 1704844800000, goals := fun _ => 45, visibility := none }

/-- C5: resolution returns a stored snapshot with the greatest date at or
before the target; when no snapshot is at or before the target it falls back
to the all-zero default; concretely, with snapshots on 2024-01-01 and
2024-01-10, resolving 2024-01-05 gives the 2024-01-01 snapshot and resolving
2023-12-31 gives the all-zero default. -/
theorem claim_C5 :
    (∀ (store : List DailyGoal) (t : Int) (g : DailyGoal),
        getDailyGoal store t = some g →
        g ∈ store ∧ g.date ≤ t ∧ ∀ x ∈ store, x.date ≤ t → x.date ≤ g.date)
    ∧ (∀ (store : List DailyGoal) (t : Int),
        getDailyGoal store t = none → ∀ x ∈ store, t < x.date)
    ∧ (∀ (store : List DailyGoal) (t : Int),
        getDailyGoal store t = none →
        resolveDailyGoal store t
            = { date := t, goals := DEFAULT_DAILY_GOAL, visibility := none }
          ∧ ∀ l, (resolveDailyGoal store t).goals l = 0)
    ∧ resolveDailyGoal [goalJan01, goalJan10] 1704412800000 = goalJan01
    ∧ ∀ l, (resolveDailyGoal [goalJan01, goalJan10] 1703980800000).goals l = 0 := by
  refine ⟨getDailyGoal_some, getDailyGoal_none, fun store t h => ?_, rfl,
    fun l => rfl⟩
  constructor
  · simp [resolveDailyGoal, h]
  · intro l
    simp [resolveDailyGoal, h, DEFAULT_DAILY_GOAL]

/-- Witness for C5: the characterization applied to the concrete scenario
(resolving 2024-01-05 yields the 2024-01-01 snapshot, which is stored, at or
before the target, and maximal), and the fallback applied to the empty
store. -/
theorem claim_C5_witness :
    (goalJan01 ∈ [goalJan01, goalJan10] ∧ goalJan01.date ≤ 1704412800000 ∧
        ∀ x ∈ [goalJan01, goalJan10],
          x.date ≤ 1704412800000 → x.date ≤ goalJan01.date)
      ∧ (resolveDailyGoal [] 1703980800000
            = { date := 1703980800000, goals := DEFAULT_DAILY_GOAL,
                visibility := none }
          ∧ ∀ l, (resolveDailyGoal [] 1703980800000).goals l = 0) :=
  ⟨claim_C5.1 [goalJan01, goalJan10] 1704412800000 goalJan01 rfl,
   claim_C5.2.2.1 [] 1703980800000 rfl⟩

/-! ## C6: partial goal update preserves siblings -/

lemma getDailyGoal_saveDailyGoal (store : List DailyGoal) (g : DailyGoal) :
    getDailyGoal (saveDailyGoal store g) g.date = some g := by
  unfold saveDailyGoal getDailyGoal
  rw [if_neg (by simp)]
  refine find_sorted_eq g.date _ (List.sorted_insertionSort goalDateGe _) g
    ((List.perm_insertionSort goalDateGe _).mem_iff.2 (by simp))
    (le_refl _) (fun x _ hxt => hxt) (fun x hx hxe => ?_)
  have hx' : x ∈ g :: store.filter (fun x => !(x.date == g.date)) :=
    (List.perm_insertionSort goalDateGe _).mem_iff.1 hx
  rcases List.mem_cons.1 hx' with rfl | hxf
  · rfl
  · have := (List.mem_filter.1 hxf).2
    simp only [Bool.not_eq_true', beq_eq_false_iff_ne, ne_eq] at this
    exact absurd hxe this

lemma resolveDailyGoal_saveDailyGoal (store : List DailyGoal) (g : DailyGoal)
    (t : Int) (h : g.date = t) :
    resolveDailyGoal (saveDailyGoal store g) t = g := by
  unfold resolveDailyGoal
  rw [← h, getDailyGoal_saveDailyGoal store g]

/-- C6: saving one language's goal resolves today's snapshot, overwrites only
that language, and persists the merged document, so re-resolving yields the
new value for that language and the prior resolved goal and visibility for
every other language. -/
theorem claim_C6 :
    ∀ (store : List DailyGoal) (today : Int) (language : Language)
      (goalInputs : Language → Nat) (languageVisibility : Language → Bool),
      (resolveDailyGoal
            (saveGoal store today language goalInputs languageVisibility)
            today).goals language
          = goalInputs language
        ∧ (∀ l, l ≠ language →
            (resolveDailyGoal
                (saveGoal store today language goalInputs languageVisibility)
                today).goals l
              = (resolveDailyGoal store today).goals l)
        ∧ ∀ l, l ≠ language →
            resolveVisibility
                (saveGoal store today language goalInputs languageVisibility)
                today languageVisibility l
              = resolveVisibility store today languageVisibility l := by
  intro store today language gi lv
  have hres : resolveDailyGoal
      (saveGoal store today language gi lv) today
      = saveGoalDoc store today language gi lv :=
    resolveDailyGoal_saveDailyGoal store _ today rfl
  refine ⟨?_, fun l hl => ?_, fun l hl => ?_⟩
  · rw [hres]
    show (if language = language then gi language else _) = gi language
    rw [if_pos rfl]
  · rw [hres]
    show (if l = language then gi language else _) = _
    rw [if_neg hl]
    unfold resolveDailyGoal
    cases h : getDailyGoal store today with
    | none => rfl
    | some g => rfl
  · rw [resolveVisibility, hres]
    show normalizeVisibility (some fun l =>
        if l = language then lv language else _) l = _
    show (if l = language then lv language else _) = _
    rw [if_neg hl]
    cases h : getDailyGoal store today with
    | none =>
      unfold resolveVisibility resolveDailyGoal
      rw [h]
    | some g =>
      dsimp only
      have hrd : resolveDailyGoal store today = g := by
        unfold resolveDailyGoal
        rw [h]
      rw [resolveVisibility, hrd]
      cases hv : g.visibility with
      | none => rfl
      | some v => rfl

/-- Witness for C6: updating `english` to 30 over a store holding the
2024-01-01 snapshot (all goals 15, no visibility mapping) leaves `japanese`
at 15 and visible. -/
theorem claim_C6_witness :
    (resolveDailyGoal
          (saveGoal [goalJan01] 1704412800000 Language.english
            (fun _ => 30) (fun _ => true))
          1704412800000).goals Language.english = 30
      ∧ (resolveDailyGoal
            (saveGoal [goalJan01] 1704412800000 Language.english
              (fun _ => 30) (fun _ => true))
            1704412800000).goals Language.japanese
        = (resolveDailyGoal [goalJan01] 1704412800000).goals Language.japanese
      ∧ resolveVisibility
            (saveGoal [goalJan01] 1704412800000 Language.english
              (fun _ => 30) (fun _ => true))
            1704412800000 (fun _ => true) Language.japanese
        = resolveVisibility [goalJan01] 1704412800000 (fun _ => true)
            Language.japanese :=
  ⟨(claim_C6 [goalJan01] 1704412800000 Language.english
      (fun _ => 30) (fun _ => true)).1,
   (claim_C6 [goalJan01] 1704412800000 Language.english
      (fun _ => 30) (fun _ => true)).2.1 Language.japanese (by decide),
   (claim_C6 [goalJan01] 1704412800000 Language.english
      (fun _ => 30) (fun _ => true)).2.2 Language.japanese (by decide)⟩

end MediaPlayRecords
